import Mathlib

/-!
Verification of `scipy/sparse/_generate_sparsetools.py`.

The Python script is a build-time code generator: it reads compact routine
signature tables (one line per routine, `name ret_and_arg_codes`), expands
the cartesian product of supported index types and data types into a list of
numbered type variants, and for every routine emits a dispatch thunk whose
branches call the underlying C++ routine with type-cast argument
expressions.

This file is a shallow embedding of that generator:
  * Python string helpers (`strip`, whitespace `split`, `split(None, 1)`,
    `"".join(s.split())`) are modelled on `List Char` with Python semantics;
  * `get_thunk_type_set` is modelled by `innerLoop`/`outerLoop`, threading
    the single global case-id counter exactly as the nested Python loops do
    (the generated C lookup text is inert string formatting and is not
    modelled; the case-id bookkeeping it serializes is);
  * the argument marshaller (the `get_arglist` closure inside
    `parse_routine`) is modelled as a fold `marshal` over the argument code
    characters with state (emitted expressions, `next_is_writeable` bit,
    slot counter `j`), producing the exact f-string texts of the source;
  * `parse_routine` keeps the data the C templates serialize: the
    `(case_id, arglist)` pairs of the thunk switch plus the
    `(ret_spec, arg_spec)` pair of the method adapter (the surrounding C
    template text is inert formatting and is not modelled);
  * `main`'s per-line handling, per-unit loop, duplicate-name check and the
    order of output-file writes are modelled by `processLine`,
    `processUnit` and `runUnits`; a write is recorded as the written file
    name (timestamp/`--no-force` plumbing is outside the modelled core, the
    default `force=True` path always writes).

Errors raised by the Python code (`ValueError`, `IndexError`) are modelled
as `Except.error` with the source's message text.
-/

set_option maxHeartbeats 1000000
set_option maxRecDepth 4000

/-- Python `str.isspace` characters relevant to `str.split()` /
`str.strip()`: space, tab, newline, vertical tab, form feed, carriage
return. -/
def pyIsSpace (c : Char) : Bool :=
  c == ' ' || c == '\t' || c == '\n' || c == '\x0b' || c == '\x0c' || c == '\r'

/-- Python `line.strip()`: remove leading and trailing whitespace. -/
def pyStrip (l : List Char) : List Char :=
  ((l.dropWhile pyIsSpace).reverse.dropWhile pyIsSpace).reverse

/-- Worker for Python `str.split()` (split on whitespace runs, no empty
tokens); `acc` is the reversed current token. -/
def pySplitWsAux : List Char → List Char → List (List Char)
  | [], acc => if acc.isEmpty then [] else [acc.reverse]
  | c :: cs, acc =>
    if pyIsSpace c then
      if acc.isEmpty then pySplitWsAux cs [] else acc.reverse :: pySplitWsAux cs []
    else
      pySplitWsAux cs (c :: acc)

/-- Python `s.split()`: whitespace-separated fields of `s`. -/
def pySplitWs (l : List Char) : List (List Char) :=
  pySplitWsAux l []

/-- Python `s.split(None, 1)` followed by unpacking into two names:
`some (first_field, remainder)` when `s` has at least two
whitespace-separated fields (the remainder keeps its trailing whitespace),
`none` when the unpacking would raise `ValueError`. -/
def pySplit1 (l : List Char) : Option (List Char × List Char) :=
  let l1 := l.dropWhile pyIsSpace
  let name := l1.takeWhile (fun c => !(pyIsSpace c))
  let rest := (l1.dropWhile (fun c => !(pyIsSpace c))).dropWhile pyIsSpace
  if name.isEmpty || rest.isEmpty then none else some (name, rest)

/-- Python `"".join(s.split())`: `s` with all whitespace removed. -/
def pyStripAll (l : List Char) : List Char :=
  (pySplitWs l).join

/-- Python `repr` of a plain string, as used by the `{x!r}` f-string
conversions in the source's error messages. -/
def pyRepr (s : String) : String :=
  "\x27" ++ s ++ "\x27"

/-- Python `str(x)` for the `T_type` slot of a type variant, which is
`None` for index-only variants: `None` formats as the text `None`. -/
def pyOptStr : Option String → String
  | none => "None"
  | some s => s

/-- One entry of the lists returned by `get_thunk_type_set`: the source's
tuples `(j, I_typenum, None, I_type, None)` (index-only) and
`(j, I_typenum, T_typenum, I_type, T_type)` (index+data). -/
structure TypeVariant where
  j : Nat
  I_typenum : String
  T_typenum : Option String
  I_type : String
  T_type : Option String

/-- The supported index typenums and the corresponding C++ types
(`I_TYPES` in the source). -/
def I_TYPES : List (String × String) :=
  [("NPY_INT32", "npy_int32"),
   ("NPY_INT64", "npy_int64")]

/-- The supported data typenums and the corresponding C++ types
(`T_TYPES` in the source). -/
def T_TYPES : List (String × String) :=
  [("NPY_BOOL", "npy_bool_wrapper"),
   ("NPY_BYTE", "npy_byte"),
   ("NPY_UBYTE", "npy_ubyte"),
   ("NPY_SHORT", "npy_short"),
   ("NPY_USHORT", "npy_ushort"),
   ("NPY_INT", "npy_int"),
   ("NPY_UINT", "npy_uint"),
   ("NPY_LONG", "npy_long"),
   ("NPY_ULONG", "npy_ulong"),
   ("NPY_LONGLONG", "npy_longlong"),
   ("NPY_ULONGLONG", "npy_ulonglong"),
   ("NPY_FLOAT", "npy_float"),
   ("NPY_DOUBLE", "npy_double"),
   ("NPY_LONGDOUBLE", "npy_longdouble"),
   ("NPY_CFLOAT", "npy_cfloat_wrapper"),
   ("NPY_CDOUBLE", "npy_cdouble_wrapper"),
   ("NPY_CLONGDOUBLE", "npy_clongdouble_wrapper")]

/-- Inner loop of `get_thunk_type_set`: for a fixed index type, append one
index+data variant per data type, incrementing the shared case-id counter
`j` once per variant; returns the variants and the final counter. -/
def innerLoop (I_typenum I_type : String) (tT : List (String × String)) (j : Nat) :
    List TypeVariant × Nat :=
  match tT with
  | [] => ([], j)
  | (T_typenum, T_type) :: rest =>
    let r := innerLoop I_typenum I_type rest (j + 1)
    (⟨j, I_typenum, some T_typenum, I_type, some T_type⟩ :: r.1, r.2)

/-- Outer loop of `get_thunk_type_set`: for each index type in declaration
order, first append the index-only variant (consuming one case id), then
run the inner loop over all data types; returns `(i_types, it_types,
final counter)`. -/
def outerLoop (tT : List (String × String)) (iT : List (String × String)) (j : Nat) :
    List TypeVariant × List TypeVariant × Nat :=
  match iT with
  | [] => ([], [], j)
  | (I_typenum, I_type) :: rest =>
    let iv : TypeVariant := ⟨j, I_typenum, none, I_type, none⟩
    let inn := innerLoop I_typenum I_type tT (j + 1)
    let r := outerLoop tT rest inn.2
    (iv :: r.1, inn.1 ++ r.2.1, r.2.2)

/-- `get_thunk_type_set()`: the pair `(i_types, it_types)` of variant
lists, with case ids assigned by a single counter starting at 0 exactly as
in the source's nested loops. (The returned `getter_code` C text is a pure
serialization of the same `(typenum, j)` associations and is not
modelled.) -/
def get_thunk_type_set (iT tT : List (String × String)) :
    List TypeVariant × List TypeVariant :=
  let r := outerLoop tT iT 0
  (r.1, r.2.1)

/-- State of the `get_arglist` loop: emitted argument expressions, the
`next_is_writeable` lookahead bit, and the positional slot counter `j`. -/
abbrev MarshalState := List String × Bool × Nat

/-- The f-string of the scalar-index branch of `get_arglist`:
`f"*({const + I_type}*)a[{j}]"`. -/
def scalar_expr (const I_type : String) (j : Nat) : String :=
  "*(" ++ (const ++ I_type) ++ "*)a[" ++ Nat.repr j ++ "]"

/-- The f-string of the array branches of `get_arglist`:
`f"({const + ty}*)a[{j}]"` with `ty` the index or data C++ type. -/
def array_expr (const ty : String) (j : Nat) : String :=
  "(" ++ (const ++ ty) ++ "*)a[" ++ Nat.repr j ++ "]"

/-- The f-string of the boolean-array branch of `get_arglist`:
`f"(npy_bool_wrapper*)a[{j}]"` — note that `const` does not occur. -/
def bool_expr (j : Nat) : String :=
  "(npy_bool_wrapper*)a[" ++ Nat.repr j ++ "]"

/-- The f-string of the vector-output branches of `get_arglist`:
`f"(std::vector<{ty}>*)a[{j}]"`. -/
def vector_expr (ty : String) (j : Nat) : String :=
  "(std::vector<" ++ ty ++ ">*)a[" ++ Nat.repr j ++ "]"

/-- The f-string of the 64-bit scalar branch of `get_arglist`:
`f"*({const}npy_int64*)a[{j}]"`. -/
def int64_expr (const : String) (j : Nat) : String :=
  "*(" ++ const ++ "npy_int64*)a[" ++ Nat.repr j ++ "]"

/-- One iteration of the `get_arglist` loop over a single argument code
character, with the source's branch order and exact expression/error
texts. -/
def arg_step (I_type T_type : String) (st : MarshalState) (t : Char) :
    Except String MarshalState :=
  let args := st.1
  let next_is_writeable := st.2.1
  let j := st.2.2
  let const := if next_is_writeable then "" else "const "
  if t = '*' then
    Except.ok (args, true, j)
  else if t = 'i' then
    Except.ok (args ++ [scalar_expr const I_type j], false, j + 1)
  else if t = 'I' then
    Except.ok (args ++ [array_expr const I_type j], false, j + 1)
  else if t = 'T' then
    Except.ok (args ++ [array_expr const T_type j], false, j + 1)
  else if t = 'B' then
    Except.ok (args ++ [bool_expr j], false, j + 1)
  else if t = 'V' then
    if const = "" then
      Except.ok (args ++ [vector_expr I_type j], false, j + 1)
    else
      Except.error ("\x27V\x27 argument must be an output arg")
  else if t = 'W' then
    if const = "" then
      Except.ok (args ++ [vector_expr T_type j], false, j + 1)
    else
      Except.error ("\x27W\x27 argument must be an output arg")
  else if t = 'l' then
    Except.ok (args ++ [int64_expr const j], false, j + 1)
  else
    Except.error ("Invalid spec character \x27" ++ String.singleton t ++ "\x27")

/-- The `get_arglist` loop run over a whole argument code string, from the
initial state (`args = []`, `next_is_writeable = False`, `j = 0`). -/
def marshal (I_type T_type : String) (arg_spec : List Char) : Except String MarshalState :=
  arg_spec.foldlM (arg_step I_type T_type) ([], false, 0)

/-- `get_arglist(I_type, T_type)`: the `", ".join(args)` of the emitted
argument expressions, or the raised error. -/
def get_arglist (I_type T_type : String) (arg_spec : List Char) : Except String String :=
  (marshal I_type T_type arg_spec).map (fun st => ", ".intercalate st.1)

/-- The ordered list of argument expressions `get_arglist` joins (the
`args` list of the source loop just before the join). -/
def get_arglist_args (I_type T_type : String) (arg_spec : List Char) :
    Except String (List String) :=
  (marshal I_type T_type arg_spec).map (fun st => st.1)

/-- `parse_routine(name, args, types)`: `args[0]` is the return code
(raising `IndexError` on an empty string), the rest are argument codes;
for every type variant in `types` the marshalled argument list is
computed.  The result keeps the data the C templates serialize: the
`(case_id, arglist)` pair per variant (the thunk's switch branches, in
order) and the `(ret_spec, arg_spec)` descriptor of the method adapter. -/
def parse_routine (name : String) (args : List Char) (types : List TypeVariant) :
    Except String (List (Nat × String) × (Char × List Char)) :=
  match args with
  | [] => Except.error ("string index out of range")
  | ret_spec :: arg_spec =>
    (types.mapM (fun v =>
      (get_arglist v.I_type (pyOptStr v.T_type) arg_spec).map
        (fun arglist => (v.j, arglist)))).map
      (fun pieces => (pieces, (ret_spec, arg_spec)))

/-- The `main` loop's type-list selection condition for one routine:
`'t' in args or 'T' in args` on the whitespace-stripped code string. -/
def usesItTypes (args : List Char) : Bool :=
  args.contains 't' || args.contains 'T'

/-- Modelled from the spec (section 4.4), for comparison with the code's
`usesItTypes`: the signature "contains a data-typed or data-vector code
anywhere in its arguments or return type", the data-typed code being `T`
(data array) and the data-vector code being `W`. -/
def spec_hasDataCode (args : List Char) : Bool :=
  args.contains 'T' || args.contains 'W'

/-- `main`'s handling of a single routine-table line: strip it, skip it if
blank or a `#` comment (`ok none`), split off the routine name (raising
`ValueError` on fewer than two fields, caught and re-raised as
`Malformed line`), strip all whitespace from the code string, pick
`it_types` or `i_types` by `usesItTypes`, and run `parse_routine`. -/
def processLine (i_ty it_ty : List TypeVariant) (line : List Char) :
    Except String (Option (String × (List (Nat × String) × (Char × List Char)))) :=
  let l := pyStrip line
  if l.isEmpty || l.head? == some '#' then
    Except.ok none
  else
    match pySplit1 l with
    | none => Except.error ("Malformed line: " ++ pyRepr (String.mk l))
    | some (name, rest) =>
      let args := pyStripAll rest
      if usesItTypes args then
        (parse_routine (String.mk name) args it_ty).map (fun r => some (String.mk name, r))
      else
        (parse_routine (String.mk name) args i_ty).map (fun r => some (String.mk name, r))

/-- `main`'s loop over one compilation unit's routine lines: thread the
run-wide `names` list, raising `Duplicate routine {name!r}` when a parsed
routine's name was already seen anywhere in the run (the duplicate check
follows `parse_routine`, as in the source). -/
def processUnit (i_ty it_ty : List TypeVariant) (routines : List String)
    (names : List String) : Except String (List String) :=
  routines.foldlM (fun ns line =>
    match processLine i_ty it_ty line.toList with
    | Except.error e => Except.error e
    | Except.ok none => Except.ok ns
    | Except.ok (some r) =>
      if ns.contains r.1 then
        Except.error ("Duplicate routine " ++ pyRepr r.1)
      else
        Except.ok (ns ++ [r.1])) names

/-- `main`'s loop over the compilation units, on the default `force=True`
path: after a unit's routines all parse, its output file
`{unit_name}_impl.h` is written; after all units, the global
`sparsetools_impl.h` is written.  The first component records the names of
the files written so far, in order; an exception stops the run, leaving
exactly the files written before it. -/
def runUnits (i_ty it_ty : List TypeVariant) (units : List (String × List String))
    (names : List String) (written : List String) :
    List String × Except String (List String) :=
  match units with
  | [] => (written ++ ["sparsetools_impl.h"], Except.ok names)
  | (unit_name, routines) :: rest =>
    match processUnit i_ty it_ty routines names with
    | Except.error e => (written, Except.error e)
    | Except.ok names2 =>
      runUnits i_ty it_ty rest names2 (written ++ [unit_name ++ "_impl.h"])

/-- The `BSR_ROUTINES` table, as the lines of the source's triple-quoted
string (the leading empty line is the newline right after the opening
quotes). -/
def BSR_ROUTINES : List String :=
  ["",
   "bsr_diagonal        v iiiiiIIT*T",
   "bsr_tocsr           v iiiiIIT*I*I*T",
   "bsr_scale_rows      v iiiiII*TT",
   "bsr_scale_columns   v iiiiII*TT",
   "bsr_sort_indices    v iiii*I*I*T",
   "bsr_transpose       v iiiiIIT*I*I*T",
   "bsr_matmat          v iiiiiiIITIIT*I*I*T",
   "bsr_matvec          v iiiiIITT*T",
   "bsr_matvecs         v iiiiiIITT*T",
   "bsr_elmul_bsr       v iiiiIITIIT*I*I*T",
   "bsr_eldiv_bsr       v iiiiIITIIT*I*I*T",
   "bsr_plus_bsr        v iiiiIITIIT*I*I*T",
   "bsr_minus_bsr       v iiiiIITIIT*I*I*T",
   "bsr_maximum_bsr     v iiiiIITIIT*I*I*T",
   "bsr_minimum_bsr     v iiiiIITIIT*I*I*T",
   "bsr_ne_bsr          v iiiiIITIIT*I*I*B",
   "bsr_lt_bsr          v iiiiIITIIT*I*I*B",
   "bsr_gt_bsr          v iiiiIITIIT*I*I*B",
   "bsr_le_bsr          v iiiiIITIIT*I*I*B",
   "bsr_ge_bsr          v iiiiIITIIT*I*I*B"]

/-- The `CSC_ROUTINES` table. -/
def CSC_ROUTINES : List String :=
  ["",
   "csc_matvec          v iiIITT*T",
   "csc_matvecs         v iiiIITT*T"]

/-- The `CSR_ROUTINES` table. -/
def CSR_ROUTINES : List String :=
  ["",
   "csr_matmat_maxnnz   l iiIIII",
   "csr_matmat          v iiIITIIT*I*I*T",
   "csr_diagonal        v iiiIIT*T",
   "csr_tocsc           v iiIIT*I*I*T",
   "csr_tobsr           v iiiiIIT*I*I*T",
   "csr_todense         v iiIIT*T",
   "csr_matvec          v iiIITT*T",
   "csr_matvecs         v iiiIITT*T",
   "csr_elmul_csr       v iiIITIIT*I*I*T",
   "csr_eldiv_csr       v iiIITIIT*I*I*T",
   "csr_plus_csr        v iiIITIIT*I*I*T",
   "csr_minus_csr       v iiIITIIT*I*I*T",
   "csr_maximum_csr     v iiIITIIT*I*I*T",
   "csr_minimum_csr     v iiIITIIT*I*I*T",
   "csr_ne_csr          v iiIITIIT*I*I*B",
   "csr_lt_csr          v iiIITIIT*I*I*B",
   "csr_gt_csr          v iiIITIIT*I*I*B",
   "csr_le_csr          v iiIITIIT*I*I*B",
   "csr_ge_csr          v iiIITIIT*I*I*B",
   "csr_scale_rows      v iiII*TT",
   "csr_scale_columns   v iiII*TT",
   "csr_sort_indices    v iI*I*T",
   "csr_eliminate_zeros v ii*I*I*T",
   "csr_sum_duplicates  v ii*I*I*T",
   "get_csr_submatrix   v iiIITiiii*V*V*W",
   "csr_row_index       v iIIIT*I*T",
   "csr_row_slice       v iiiIIT*I*T",
   "csr_column_index1   v iIiiII*I*I",
   "csr_column_index2   v IIiIT*I*T",
   "csr_sample_values   v iiIITiII*T",
   "csr_count_blocks    i iiiiII",
   "csr_sample_offsets  i iiIIiII*I",
   "csr_hstack          v iiIIIT*I*I*T",
   "expandptr           v iI*I",
   "test_throw_error    i",
   "csr_has_sorted_indices    i iII",
   "csr_has_canonical_format  i iII"]

/-- The `OTHER_ROUTINES` table. -/
def OTHER_ROUTINES : List String :=
  ["",
   "coo_tocsr           v iiiIIT*I*I*T",
   "coo_todense         v iilIIT*Ti",
   "coo_todense_nd      v IllIT*Ti",
   "coo_matvec          v lIITT*T",
   "coo_matvec_nd       v llIITT*T",
   "coo_matmat_dense    v llIITT*T",
   "coo_matmat_dense_nd v lllIIITT*T",
   "dia_tocsr           i iiiiITI*T*I*I",
   "dia_matmat          v iiiiITiiiIT*V*W",
   "dia_matvec          v iiiiITT*T",
   "dia_matvecs         v iiiiITiT*T",
   "cs_graph_components i iII*I"]

/-- The `COMPILATION_UNITS` list of the source. -/
def COMPILATION_UNITS : List (String × List String) :=
  [("bsr", BSR_ROUTINES),
   ("csr", CSR_ROUTINES),
   ("csc", CSC_ROUTINES),
   ("other", OTHER_ROUTINES)]

/-- The `i_types` list `main` obtains from `get_thunk_type_set`. -/
def i_types : List TypeVariant :=
  (get_thunk_type_set I_TYPES T_TYPES).1

/-- The `it_types` list `main` obtains from `get_thunk_type_set`. -/
def it_types : List TypeVariant :=
  (get_thunk_type_set I_TYPES T_TYPES).2

/-- The whole generation run of `main` over given routine tables, with the
reference type configuration. -/
def runMain (units : List (String × List String)) :
    List String × Except String (List String) :=
  runUnits i_types it_types units [] []

/-- The argument-code strings (whitespace-stripped, return code included)
of every routine line in the embedded tables, extracted exactly as
`main`'s line loop does. -/
def tableArgSpecs : List (List Char) :=
  (COMPILATION_UNITS.map (fun u => u.2)).join.filterMap (fun line =>
    let l := pyStrip line.toList
    if l.isEmpty || l.head? == some '#' then none
    else
      match pySplit1 l with
      | none => none
      | some (_, rest) => some (pyStripAll rest))

/-- The hypothetical input of the spec's duplicate-name test property:
`csr_matvec` reused in two different compilation units' tables. -/
def dupUnits : List (String × List String) :=
  [("bsr", ["csr_matvec          v iiIITT*T"]),
   ("csr", ["csr_matvec          v iiIITT*T"])]

/-! ## Properties of the type matrix builder -/

theorem innerLoop_spec (I_typenum I_type : String) (tT : List (String × String)) (j : Nat) :
    (innerLoop I_typenum I_type tT j).1.map TypeVariant.j = List.range' j tT.length ∧
    (innerLoop I_typenum I_type tT j).2 = j + tT.length := by
  induction tT generalizing j with
  | nil => simp [innerLoop]
  | cons h t ih =>
    obtain ⟨Tn, Tt⟩ := h
    have hih := ih (j + 1)
    refine ⟨?_, ?_⟩
    · simp only [innerLoop, List.map_cons, hih.1, List.length_cons, List.range'_succ]
    · simp only [innerLoop, hih.2, List.length_cons]
      omega

theorem innerLoop_length (I_typenum I_type : String) (tT : List (String × String)) (j : Nat) :
    (innerLoop I_typenum I_type tT j).1.length = tT.length := by
  have h := congrArg List.length (innerLoop_spec I_typenum I_type tT j).1
  simpa using h

theorem outerLoop_lengths (iT tT : List (String × String)) (j : Nat) :
    (outerLoop tT iT j).1.length = iT.length ∧
    (outerLoop tT iT j).2.1.length = iT.length * tT.length := by
  induction iT generalizing j with
  | nil => simp [outerLoop]
  | cons h rest ih =>
    obtain ⟨In, It⟩ := h
    have hih := ih (innerLoop In It tT (j + 1)).2
    refine ⟨?_, ?_⟩
    · simp only [outerLoop, List.length_cons, hih.1]
    · simp only [outerLoop, List.length_append, innerLoop_length, hih.2, List.length_cons]
      ring

theorem outerLoop_perm (iT tT : List (String × String)) (j : Nat) :
    ((outerLoop tT iT j).1.map TypeVariant.j ++
      (outerLoop tT iT j).2.1.map TypeVariant.j).Perm
      (List.range' j (iT.length * (tT.length + 1))) ∧
    (outerLoop tT iT j).2.2 = j + iT.length * (tT.length + 1) := by
  induction iT generalizing j with
  | nil => simp [outerLoop]
  | cons h rest ih =>
    obtain ⟨In, It⟩ := h
    have hin := innerLoop_spec In It tT (j + 1)
    have hih := ih (innerLoop In It tT (j + 1)).2
    have hcount : (innerLoop In It tT (j + 1)).2 = j + 1 + tT.length := hin.2
    constructor
    · simp only [outerLoop, List.map_cons, List.map_append, hin.1, List.cons_append,
        List.length_cons]
      have harith : (rest.length + 1) * (tT.length + 1) =
          rest.length * (tT.length + 1) + (tT.length + 1) := by ring
      rw [harith]
      have hr : List.range' j (rest.length * (tT.length + 1) + (tT.length + 1)) =
          List.range' j (tT.length + 1) ++
            List.range' (j + (tT.length + 1)) (rest.length * (tT.length + 1)) := by
        have := List.range'_append j (tT.length + 1) (rest.length * (tT.length + 1)) 1
        simpa [Nat.one_mul, Nat.add_comm] using this.symm
      rw [hr, List.range'_succ, List.cons_append]
      refine List.Perm.cons j ?_
      have h1 : ((outerLoop tT rest (innerLoop In It tT (j + 1)).2).1.map TypeVariant.j ++
          (List.range' (j + 1) tT.length 1 ++
            (outerLoop tT rest (innerLoop In It tT (j + 1)).2).2.1.map TypeVariant.j)).Perm
          (List.range' (j + 1) tT.length 1 ++
            ((outerLoop tT rest (innerLoop In It tT (j + 1)).2).1.map TypeVariant.j ++
              (outerLoop tT rest (innerLoop In It tT (j + 1)).2).2.1.map TypeVariant.j)) :=
        List.perm_append_comm_assoc _ _ _
      refine h1.trans ?_
      refine List.Perm.append_left _ ?_
      have harith2 : j + (tT.length + 1) = (innerLoop In It tT (j + 1)).2 := by
        rw [hcount]; omega
      rw [harith2]
      exact hih.1
    · simp only [outerLoop, List.length_cons]
      rw [hih.2, hcount]
      ring

/-- C1: for every configuration of `n` index types and `m` data types, the
case ids of `get_thunk_type_set` are exactly the contiguous set
`{0 .. n*m+n-1}` with no duplicates (`n` ids for the index-only variants
and `n*m` for the index+data variants), and every case id, being a
non-negative integer, differs from the lookup sentinel `-1`. -/
theorem claim_C1_case_id_set (iT tT : List (String × String)) :
    (get_thunk_type_set iT tT).1.length = iT.length ∧
    (get_thunk_type_set iT tT).2.length = iT.length * tT.length ∧
    ((get_thunk_type_set iT tT).1.map TypeVariant.j ++
      (get_thunk_type_set iT tT).2.map TypeVariant.j).Perm
      (List.range (iT.length * tT.length + iT.length)) ∧
    ∀ x ∈ (get_thunk_type_set iT tT).1.map TypeVariant.j ++
      (get_thunk_type_set iT tT).2.map TypeVariant.j, ((x : Int) ≠ -1) := by
  have hlen := outerLoop_lengths iT tT 0
  have hperm := (outerLoop_perm iT tT 0).1
  have harith : iT.length * (tT.length + 1) = iT.length * tT.length + iT.length := by ring
  rw [harith] at hperm
  have hperm2 : ((get_thunk_type_set iT tT).1.map TypeVariant.j ++
      (get_thunk_type_set iT tT).2.map TypeVariant.j).Perm
      (List.range (iT.length * tT.length + iT.length)) := by
    rw [List.range_eq_range']
    simpa [get_thunk_type_set] using hperm
  refine ⟨hlen.1, hlen.2, hperm2, ?_⟩
  intro x hx
  have hmem : x ∈ List.range (iT.length * tT.length + iT.length) := hperm2.mem_iff.mp hx
  have hlt : x < iT.length * tT.length + iT.length := List.mem_range.mp hmem
  omega

/-- C1 witness: in the reference configuration (2 index types, 17 data
types) the largest case id 35 is a valid id and differs from `-1`. -/
theorem claim_C1_case_id_set_witness : ((35 : Nat) : Int) ≠ -1 :=
  (claim_C1_case_id_set I_TYPES T_TYPES).2.2.2 35 (by decide)

theorem outerLoop_i_getElem (iT tT : List (String × String)) (j k : Nat)
    (hk : k < iT.length) :
    ((outerLoop tT iT j).1.map TypeVariant.j)[k]? = some (j + k * (tT.length + 1)) := by
  induction iT generalizing j k with
  | nil => simp at hk
  | cons h rest ih =>
    obtain ⟨In, It⟩ := h
    cases k with
    | zero => simp [outerLoop]
    | succ k2 =>
      have hk2 : k2 < rest.length := by simpa using hk
      have hih := ih (innerLoop In It tT (j + 1)).2 k2 hk2
      simp only [outerLoop, List.map_cons, List.getElem?_cons_succ]
      rw [hih, (innerLoop_spec In It tT (j + 1)).2]
      congr 1
      ring

theorem outerLoop_it_getElem (iT tT : List (String × String)) (j k l : Nat)
    (hk : k < iT.length) (hl : l < tT.length) :
    ((outerLoop tT iT j).2.1.map TypeVariant.j)[k * tT.length + l]? =
      some (j + k * (tT.length + 1) + 1 + l) := by
  induction iT generalizing j k with
  | nil => simp at hk
  | cons h rest ih =>
    obtain ⟨In, It⟩ := h
    have hinmap := (innerLoop_spec In It tT (j + 1)).1
    have hinlen : ((innerLoop In It tT (j + 1)).1.map TypeVariant.j).length = tT.length := by
      rw [hinmap]; simp
    cases k with
    | zero =>
      simp only [outerLoop, List.map_append, Nat.zero_mul, Nat.zero_add]
      rw [List.getElem?_append_left (by omega), hinmap,
        List.getElem?_range' (j + 1) 1 hl]
      congr 1
      ring
    | succ k2 =>
      have hk2 : k2 < rest.length := by simpa using hk
      have hih := ih (innerLoop In It tT (j + 1)).2 k2 hk2
      have hidx : (k2 + 1) * tT.length + l = tT.length + (k2 * tT.length + l) := by ring
      simp only [outerLoop, List.map_append]
      rw [hidx, List.getElem?_append_right (by omega), hinlen, Nat.add_sub_cancel_left, hih,
        (innerLoop_spec In It tT (j + 1)).2]
      congr 1
      ring

/-- C7: case ids are assigned by iterating index types in declaration
order, giving each index type's index-only variant its id before that
index type's data variants, which follow in data-type declaration order:
the `k`-th index type's index-only variant (0-based) receives id
`k*(m+1)` and its `l`-th data variant sits at position `k*m+l` of
`it_types` with id `k*(m+1)+1+l`. -/
theorem claim_C7_case_id_order (iT tT : List (String × String)) (k l : Nat)
    (hk : k < iT.length) (hl : l < tT.length) :
    ((get_thunk_type_set iT tT).1.map TypeVariant.j)[k]? = some (k * (tT.length + 1)) ∧
    ((get_thunk_type_set iT tT).2.map TypeVariant.j)[k * tT.length + l]? =
      some (k * (tT.length + 1) + 1 + l) := by
  have h1 := outerLoop_i_getElem iT tT 0 k hk
  have h2 := outerLoop_it_getElem iT tT 0 k l hk hl
  constructor
  · simpa [get_thunk_type_set] using h1
  · simpa [get_thunk_type_set] using h2

/-- C7 witness: in the reference configuration (`m = 17`), the second
index type (`k = 1`) has its index-only variant at position 1 with id
`1*(17+1) = 18`, and its data variant for `l = 2` at position
`1*17+2 = 19` with id `18+1+2 = 21`. -/
theorem claim_C7_case_id_order_witness :
    ((get_thunk_type_set I_TYPES T_TYPES).1.map TypeVariant.j)[1]? = some 18 ∧
    ((get_thunk_type_set I_TYPES T_TYPES).2.map TypeVariant.j)[19]? = some 21 :=
  claim_C7_case_id_order I_TYPES T_TYPES 1 2 (by decide) (by decide)

/-! ## Properties of the argument marshaller -/

theorem arg_step_cases (I T : String) (a : List String) (w : Bool) (j : Nat) (c : Char)
    (args : List String) (w2 : Bool) (j2 : Nat)
    (h : arg_step I T (a, w, j) c = Except.ok (args, w2, j2)) :
    (c = '*' ∧ args = a ∧ w2 = true ∧ j2 = j) ∨
    (c ≠ '*' ∧ (∃ e, args = a ++ [e]) ∧ w2 = false ∧ j2 = j + 1) := by
  by_cases hc : c = '*'
  · subst hc
    rw [show arg_step I T (a, w, j) '*' = Except.ok (a, true, j) from rfl] at h
    simp only [Except.ok.injEq, Prod.mk.injEq] at h
    exact Or.inl ⟨rfl, h.1.symm, h.2.1.symm, h.2.2.symm⟩
  · refine Or.inr ⟨hc, ?_⟩
    simp only [arg_step, if_neg hc] at h
    repeat' split at h
    all_goals
      first
      | (simp only [Except.ok.injEq, Prod.mk.injEq] at h
         obtain ⟨h1, h2, h3⟩ := h
         exact ⟨⟨_, h1.symm⟩, h2.symm, h3.symm⟩)
      | simp at h

theorem marshal_state (I T : String) (pre : List Char) (args : List String) (w : Bool)
    (j : Nat) (h : marshal I T pre = Except.ok (args, w, j)) :
    (w = true ↔ pre.getLast? = some '*') ∧ j = args.length := by
  induction pre using List.reverseRecOn generalizing args w j with
  | nil =>
    simp only [marshal, List.foldlM_nil, pure, Except.pure, Except.ok.injEq,
      Prod.mk.injEq] at h
    obtain ⟨h1, h2, h3⟩ := h
    subst h1
    subst h2
    subst h3
    simp
  | append_singleton xs c ih =>
    rw [marshal, List.foldlM_append] at h
    cases hx : List.foldlM (arg_step I T) ([], false, 0) xs with
    | error e =>
      rw [hx] at h
      simp [Bind.bind, Except.bind] at h
    | ok st =>
      rw [hx] at h
      obtain ⟨a2, w2, j2⟩ := st
      have ihr := ih a2 w2 j2 hx
      have hstep : arg_step I T (a2, w2, j2) c = Except.ok (args, w, j) := by
        simpa [List.foldlM_cons, List.foldlM_nil] using h
      rcases arg_step_cases I T a2 w2 j2 c args w j hstep with
        ⟨hc, ha, hw, hj⟩ | ⟨hc, ⟨e, ha⟩, hw, hj⟩
      · subst hc
        subst ha
        subst hw
        subst hj
        refine ⟨?_, ihr.2⟩
        simp [List.getLast?_concat]
      · subst ha
        subst hw
        subst hj
        refine ⟨?_, ?_⟩
        · simp [List.getLast?_concat, hc]
        · simp [ihr.2]

theorem marshal_append (I T : String) (xs ys : List Char) :
    marshal I T (xs ++ ys) =
      marshal I T xs >>= fun st => List.foldlM (arg_step I T) st ys := by
  simp [marshal, List.foldlM_append]

theorem foldlM_arg_step (I T : String) (st st2 : MarshalState) (c : Char) (cs : List Char)
    (h : arg_step I T st c = Except.ok st2) :
    List.foldlM (arg_step I T) st (c :: cs) = List.foldlM (arg_step I T) st2 cs := by
  rw [List.foldlM_cons, h]
  rfl

/-- C2 (amended): marshalling the argument codes of the `bsr_diagonal`
signature (`"iiiiiIIT*T"`) over any chosen (index, data) type pair
produces exactly nine argument expressions in order (not eight: the codes
are five `i`, two `I`, one `T`, and the output-marked final `T`), and the
ninth expression is mutable (empty qualifier, slot `a[8]`) because it is
the output-marked final `T`; the mutable form differs from the
const-qualified one. -/
theorem claim_C2_bsr_diagonal_arglist (I T : String) :
    get_arglist_args I T ("iiiiiIIT*T".toList) = Except.ok
      [scalar_expr "const " I 0,
       scalar_expr "const " I 1,
       scalar_expr "const " I 2,
       scalar_expr "const " I 3,
       scalar_expr "const " I 4,
       array_expr "const " I 5,
       array_expr "const " I 6,
       array_expr "const " T 7,
       array_expr "" T 8] ∧
    array_expr "" T 8 ≠ array_expr "const " T 8 := by
  constructor
  · rfl
  · intro heq
    have hlen := congrArg String.length heq
    have e1 : ("(" : String).length = 1 := rfl
    have e2 : ("const " : String).length = 6 := rfl
    have e3 : ("*)a[" : String).length = 4 := rfl
    have e4 : (Nat.repr 8).length = 1 := rfl
    have e5 : ("]" : String).length = 1 := rfl
    have e6 : ("" : String).length = 0 := rfl
    simp only [array_expr, String.length_append, e1, e2, e3, e4, e5, e6] at hlen
    omega

/-- C2 counterexample: over the concrete pair (`npy_int32`, `npy_double`),
marshalling `"iiiiiIIT*T"` produces nine argument expressions, not the
eight the claim states. -/
theorem claim_C2_counterexample :
    (get_arglist_args "npy_int32" "npy_double" ("iiiiiIIT*T".toList)).map List.length =
      Except.ok 9 ∧
    (get_arglist_args "npy_int32" "npy_double" ("iiiiiIIT*T".toList)).map List.length ≠
      Except.ok 8 := by
  refine ⟨rfl, fun hcontra => ?_⟩
  rw [show (get_arglist_args "npy_int32" "npy_double" ("iiiiiIIT*T".toList)).map
    List.length = Except.ok 9 from rfl] at hcontra
  simp at hcontra

/-- C3 (amended): output markers are never reported as errors: a trailing
marker at the end of the argument codes is silently dropped (it changes no
emitted argument), back-to-back markers collapse into one, and the spec's
test line `foo v **` (argument codes `**`) marshals successfully to an
empty argument list instead of aborting. -/
theorem claim_C3_markers_silently_dropped :
    (∀ (I T : String) (cs : List Char),
      get_arglist_args I T (cs ++ ['*']) = get_arglist_args I T cs) ∧
    (∀ (I T : String) (cs ds : List Char),
      marshal I T (cs ++ '*' :: '*' :: ds) = marshal I T (cs ++ '*' :: ds)) ∧
    get_arglist "npy_int32" "npy_double" ("**".toList) = Except.ok "" := by
  refine ⟨?_, ?_, rfl⟩
  · intro I T cs
    rw [get_arglist_args, get_arglist_args, marshal_append]
    cases hx : marshal I T cs with
    | error e => rfl
    | ok st =>
      obtain ⟨a, w, jj⟩ := st
      rfl
  · intro I T cs ds
    rw [marshal_append, marshal_append]
    cases hx : marshal I T cs with
    | error e => rfl
    | ok st =>
      obtain ⟨a, w, jj⟩ := st
      rfl

/-- C3 counterexample: the DSL line `foo v **` does not abort generation:
`main`'s line handling parses it without error, producing a thunk whose
two (index-only) cases both have an empty argument list — the dangling and
doubled markers are silently dropped. -/
theorem claim_C3_counterexample :
    processLine i_types it_types ("foo                 v **".toList) =
      Except.ok (some ("foo", ([(0, ""), (18, "")], ('v', ['*', '*'])))) := by
  rfl

/-- C4 (amended): in any marshalling state reached after codes `pre`, an
index-array (`I`) or data-array (`T`) code emits for its positional slot
(`a[args.length]`) a typed array-pointer expression that is
const-qualified exactly when the code is not immediately preceded by the
output marker; a bool-array (`B`) code instead always emits the
unqualified `(npy_bool_wrapper*)` expression, whether or not a marker
precedes it. -/
theorem claim_C4_array_const_qualification (I T : String) (pre : List Char)
    (args : List String) (w : Bool) (j : Nat)
    (h : marshal I T pre = Except.ok (args, w, j)) :
    marshal I T (pre ++ ['I']) = Except.ok
      (args ++ [array_expr (if pre.getLast? = some '*' then "" else "const ") I
        args.length], false, args.length + 1) ∧
    marshal I T (pre ++ ['T']) = Except.ok
      (args ++ [array_expr (if pre.getLast? = some '*' then "" else "const ") T
        args.length], false, args.length + 1) ∧
    marshal I T (pre ++ ['B']) = Except.ok
      (args ++ [bool_expr args.length], false, args.length + 1) := by
  obtain ⟨hw, hj⟩ := marshal_state I T pre args w j h
  subst hj
  refine ⟨?_, ?_, ?_⟩ <;> rw [marshal_append, h]
  · by_cases hgl : pre.getLast? = some '*'
    · rw [if_pos hgl]
      have hwt : w = true := hw.mpr hgl
      subst hwt
      rfl
    · rw [if_neg hgl]
      have hwf : w = false := by
        cases w with
        | false => rfl
        | true => exact absurd (hw.mp rfl) hgl
      subst hwf
      rfl
  · by_cases hgl : pre.getLast? = some '*'
    · rw [if_pos hgl]
      have hwt : w = true := hw.mpr hgl
      subst hwt
      rfl
    · rw [if_neg hgl]
      have hwf : w = false := by
        cases w with
        | false => rfl
        | true => exact absurd (hw.mp rfl) hgl
      subst hwf
      rfl
  · cases w with
    | false => rfl
    | true => rfl

/-- C4 witness: concrete instances — an `I` preceded by the marker yields
the mutable pointer for slot 0, an `I` not preceded by it yields the
const-qualified one. -/
theorem claim_C4_witness :
    marshal "npy_int32" "npy_double" ['*', 'I'] =
      Except.ok (["(npy_int32*)a[0]"], false, 1) ∧
    marshal "npy_int32" "npy_double" ['I'] =
      Except.ok (["(const npy_int32*)a[0]"], false, 1) := by
  have h1 := (claim_C4_array_const_qualification "npy_int32" "npy_double" ['*'] [] true 0
    rfl).1
  have h2 := (claim_C4_array_const_qualification "npy_int32" "npy_double" [] [] false 0
    rfl).1
  exact ⟨h1, h2⟩

/-- C4 counterexample: a `B` code not preceded by the output marker
produces the expression `(npy_bool_wrapper*)a[0]`, which is not
const-qualified — it differs from the const-qualified form the claim
requires for a non-output slot. -/
theorem claim_C4_counterexample :
    get_arglist_args "npy_int32" "npy_double" ['B'] = Except.ok ["(npy_bool_wrapper*)a[0]"] ∧
    "(npy_bool_wrapper*)a[0]" ≠ "(const npy_bool_wrapper*)a[0]" := by
  refine ⟨rfl, ?_⟩
  decide

/-- C8: an index-vector-out (`V`) or data-vector-out (`W`) code that is
not immediately preceded by the output marker aborts marshalling with the
configuration error of the source (`'V'`/`'W'` `argument must be an output
arg`), no matter what follows; when the marker immediately precedes it,
the code emits the typed dynamic-vector pointer expression for its slot
without error. -/
theorem claim_C8_vector_output_marker (I T : String) (pre post : List Char)
    (args : List String) (w : Bool) (j : Nat)
    (h : marshal I T pre = Except.ok (args, w, j)) :
    (pre.getLast? ≠ some '*' →
      marshal I T (pre ++ 'V' :: post) =
        Except.error ("\x27V\x27 argument must be an output arg") ∧
      marshal I T (pre ++ 'W' :: post) =
        Except.error ("\x27W\x27 argument must be an output arg")) ∧
    (pre.getLast? = some '*' →
      marshal I T (pre ++ ['V']) =
        Except.ok (args ++ [vector_expr I args.length], false, args.length + 1) ∧
      marshal I T (pre ++ ['W']) =
        Except.ok (args ++ [vector_expr T args.length], false, args.length + 1)) := by
  obtain ⟨hw, hj⟩ := marshal_state I T pre args w j h
  subst hj
  constructor
  · intro hgl
    have hwf : w = false := by
      cases w with
      | false => rfl
      | true => exact absurd (hw.mp rfl) hgl
    subst hwf
    rw [marshal_append, marshal_append, h]
    exact ⟨rfl, rfl⟩
  · intro hgl
    have hwt : w = true := hw.mpr hgl
    subst hwt
    rw [marshal_append, marshal_append, h]
    exact ⟨rfl, rfl⟩

/-- C8 witness: concrete instances — a `V` with no preceding marker
aborts with the source's error, a `V` right after the marker emits the
dynamic-vector pointer for slot 0. -/
theorem claim_C8_vector_output_marker_witness :
    marshal "npy_int32" "npy_double" ['V'] =
      Except.error ("\x27V\x27 argument must be an output arg") ∧
    marshal "npy_int32" "npy_double" ['*', 'V'] =
      Except.ok (["(std::vector<npy_int32>*)a[0]"], false, 1) := by
  have h1 := ((claim_C8_vector_output_marker "npy_int32" "npy_double" [] [] [] false 0
    rfl).1 (by decide)).1
  have h2 := ((claim_C8_vector_output_marker "npy_int32" "npy_double" ['*'] [] [] true 0
    rfl).2 rfl).1
  exact ⟨h1, h2⟩

/-! ## Properties of the Python string helpers and the line parser -/

theorem dropWhile_head_not (p : Char → Bool) (l : List Char) (c : Char) (cs : List Char)
    (h : l.dropWhile p = c :: cs) : p c = false := by
  induction l with
  | nil => simp at h
  | cons a as ih =>
    rw [List.dropWhile_cons] at h
    split at h
    · exact ih h
    · rename_i hpa
      injection h with h1 h2
      subst h1
      simpa using hpa

theorem pySplitWsAux_join (l : List Char) :
    ∀ acc : List Char,
      (pySplitWsAux l acc).join = acc.reverse ++ l.filter (fun c => !(pyIsSpace c)) := by
  induction l with
  | nil =>
    intro acc
    by_cases ha : acc.isEmpty
    · have hn : acc = [] := List.isEmpty_iff.mp ha
      subst hn
      simp [pySplitWsAux]
    · simp [pySplitWsAux, ha]
  | cons c cs ih =>
    intro acc
    by_cases hc : pyIsSpace c
    · by_cases ha : acc.isEmpty
      · have hn : acc = [] := List.isEmpty_iff.mp ha
        subst hn
        simp [pySplitWsAux, hc, ih, List.filter_cons]
      · simp [pySplitWsAux, hc, ha, ih, List.filter_cons]
    · simp [pySplitWsAux, hc, ih (c :: acc), List.filter_cons]

theorem pyStripAll_eq_filter (l : List Char) :
    pyStripAll l = l.filter (fun c => !(pyIsSpace c)) := by
  have h := pySplitWsAux_join l []
  simpa [pyStripAll, pySplitWs] using h

theorem pySplitWsAux_ne_nil (l : List Char) :
    ∀ acc : List Char, acc ≠ [] → pySplitWsAux l acc ≠ [] := by
  induction l with
  | nil =>
    intro acc h
    simp [pySplitWsAux, h]
  | cons c cs ih =>
    intro acc h
    by_cases hc : pyIsSpace c
    · simp [pySplitWsAux, hc, h]
    · simp only [pySplitWsAux, hc]
      simp only [Bool.false_eq_true, if_false]
      exact ih (c :: acc) (by simp)

theorem pySplitWs_nil_iff (l : List Char) :
    pySplitWs l = [] ↔ l.dropWhile pyIsSpace = [] := by
  induction l with
  | nil => simp [pySplitWs, pySplitWsAux]
  | cons c cs ih =>
    by_cases hc : pyIsSpace c
    · have h1 : pySplitWs (c :: cs) = pySplitWs cs := by
        simp [pySplitWs, pySplitWsAux, hc]
      rw [h1, List.dropWhile_cons_of_pos hc]
      exact ih
    · have h1 : pySplitWs (c :: cs) = pySplitWsAux cs [c] := by
        simp [pySplitWs, pySplitWsAux, hc]
      rw [h1, List.dropWhile_cons_of_neg (by simpa using hc)]
      constructor
      · intro hcontra
        exact absurd hcontra (pySplitWsAux_ne_nil cs [c] (by simp))
      · intro hcontra
        cases hcontra

theorem pySplitWs_dropWhile (l : List Char) :
    pySplitWs (l.dropWhile pyIsSpace) = pySplitWs l := by
  induction l with
  | nil => rfl
  | cons c cs ih =>
    by_cases hc : pyIsSpace c
    · have h1 : pySplitWs (c :: cs) = pySplitWs cs := by
        simp [pySplitWs, pySplitWsAux, hc]
      rw [List.dropWhile_cons_of_pos hc, ih, h1]
    · rw [List.dropWhile_cons_of_neg (by simpa using hc)]

theorem pySplitWsAux_acc (l : List Char) :
    ∀ acc : List Char, acc ≠ [] →
      pySplitWsAux l acc =
        (acc.reverse ++ l.takeWhile (fun c => !(pyIsSpace c))) ::
          pySplitWs (l.dropWhile (fun c => !(pyIsSpace c))) := by
  induction l with
  | nil =>
    intro acc h
    simp [pySplitWsAux, h, pySplitWs]
  | cons c cs ih =>
    intro acc h
    by_cases hc : pyIsSpace c
    · have h1 : pySplitWsAux (c :: cs) acc = acc.reverse :: pySplitWsAux cs [] := by
        simp [pySplitWsAux, hc, h]
      rw [h1]
      rw [List.takeWhile_cons_of_neg (by simpa using hc),
        List.dropWhile_cons_of_neg (by simpa using hc)]
      have h2 : pySplitWs (c :: cs) = pySplitWsAux cs [] := by
        simp [pySplitWs, pySplitWsAux, hc]
      rw [h2]
      simp
    · have h1 : pySplitWsAux (c :: cs) acc = pySplitWsAux cs (c :: acc) := by
        simp [pySplitWsAux, hc]
      rw [h1, ih (c :: acc) (by simp),
        List.takeWhile_cons_of_pos (by simpa using hc),
        List.dropWhile_cons_of_pos (by simpa using hc)]
      simp

theorem pySplit1_none_iff (l : List Char) :
    pySplit1 l = none ↔ (pySplitWs l).length < 2 := by
  cases hl1 : l.dropWhile pyIsSpace with
  | nil =>
    have hws : pySplitWs l = [] := by
      rw [← pySplitWs_dropWhile, hl1]
      rfl
    simp [pySplit1, hl1, hws]
  | cons c cs =>
    have hc : pyIsSpace c = false := dropWhile_head_not pyIsSpace l c cs hl1
    have hname : (c :: cs).takeWhile (fun x => !(pyIsSpace x)) =
        c :: cs.takeWhile (fun x => !(pyIsSpace x)) :=
      List.takeWhile_cons_of_pos (by simp [hc])
    have hdrop : (c :: cs).dropWhile (fun x => !(pyIsSpace x)) =
        cs.dropWhile (fun x => !(pyIsSpace x)) :=
      List.dropWhile_cons_of_pos (by simp [hc])
    have hsplit : pySplitWs l = (c :: cs.takeWhile (fun x => !(pyIsSpace x))) ::
        pySplitWs (cs.dropWhile (fun x => !(pyIsSpace x))) := by
      rw [← pySplitWs_dropWhile, hl1]
      have h1 : pySplitWs (c :: cs) = pySplitWsAux cs [c] := by
        simp [pySplitWs, pySplitWsAux, hc]
      rw [h1, pySplitWsAux_acc cs [c] (by simp)]
      simp
    have hp1 : pySplit1 l =
        (if ((cs.dropWhile (fun x => !(pyIsSpace x))).dropWhile pyIsSpace).isEmpty
          then none
          else some (c :: cs.takeWhile (fun x => !(pyIsSpace x)),
            (cs.dropWhile (fun x => !(pyIsSpace x))).dropWhile pyIsSpace)) := by
      simp only [pySplit1, hl1, hname, hdrop]
      simp
    rw [hp1, hsplit]
    by_cases hre : ((cs.dropWhile (fun x => !(pyIsSpace x))).dropWhile pyIsSpace).isEmpty
    · rw [if_pos hre]
      have hws0 : pySplitWs (cs.dropWhile (fun x => !(pyIsSpace x))) = [] := by
        rw [pySplitWs_nil_iff]
        exact List.isEmpty_iff.mp hre
      simp [hws0]
    · rw [if_neg hre]
      have hws0 : pySplitWs (cs.dropWhile (fun x => !(pyIsSpace x))) ≠ [] := by
        intro hcontra
        exact hre (by simp [(pySplitWs_nil_iff _).mp hcontra])
      have hlen : 1 ≤ (pySplitWs (cs.dropWhile (fun x => !(pyIsSpace x)))).length := by
        cases hx : pySplitWs (cs.dropWhile (fun x => !(pyIsSpace x))) with
        | nil => exact absurd hx hws0
        | cons a b => simp
      simp only [List.length_cons]
      constructor
      · intro hcontra
        cases hcontra
      · intro hcontra
        omega

/-- C9: a non-blank, non-comment routine line with fewer than two
whitespace-separated fields makes `main`'s line handling raise the
run-aborting `Malformed line` error; a line with at least two fields is
split into a name token and a type-code token without error. -/
theorem claim_C9_two_field_split (line : List Char)
    (hne : pyStrip line ≠ [])
    (hcomment : (pyStrip line).head? ≠ some '#') :
    ((pySplitWs (pyStrip line)).length < 2 →
      ∀ (i_ty it_ty : List TypeVariant),
        processLine i_ty it_ty line =
          Except.error ("Malformed line: " ++ pyRepr (String.mk (pyStrip line)))) ∧
    (2 ≤ (pySplitWs (pyStrip line)).length →
      ∃ nameTok rest, pySplit1 (pyStrip line) = some (nameTok, rest)) := by
  constructor
  · intro hlt i_ty it_ty
    have hnone : pySplit1 (pyStrip line) = none := (pySplit1_none_iff _).mpr hlt
    have hempty : (pyStrip line).isEmpty = false := by
      cases hx : pyStrip line with
      | nil => exact absurd hx hne
      | cons a b => rfl
    have hcomm : ((pyStrip line).head? == some '#') = false :=
      beq_eq_false_iff_ne.mpr hcomment
    simp [processLine, hempty, hcomm, hnone]
  · intro hge
    have hnn : pySplit1 (pyStrip line) ≠ none := by
      intro hcontra
      have := (pySplit1_none_iff (pyStrip line)).mp hcontra
      omega
    cases hs : pySplit1 (pyStrip line) with
    | none => exact absurd hs hnn
    | some v =>
      obtain ⟨a, b⟩ := v
      exact ⟨a, b, rfl⟩

/-- C9 witness: the `csr_matvec` table line has two fields and splits
successfully. -/
theorem claim_C9_two_field_split_witness :
    (pySplit1 (pyStrip ("csr_matvec          v iiIITT*T".toList))).isSome = true := by
  obtain ⟨nm, rest, hh⟩ :=
    (claim_C9_two_field_split ("csr_matvec          v iiIITT*T".toList)
      (by decide) (by decide)).2 (by decide)
  rw [hh]
  rfl

theorem arg_step_error_ne_index (I T : String) (st : MarshalState) (c : Char) (e : String)
    (h : arg_step I T st c = Except.error e) : e ≠ "string index out of range" := by
  obtain ⟨a, w, j⟩ := st
  simp only [arg_step] at h
  repeat' split at h
  all_goals
    first
    | ((try simp only [Except.error.injEq] at h)
       subst h
       intro hq
       have hql := congrArg String.length hq
       have h1 : ("Invalid spec character \x27" : String).length = 24 := rfl
       have h2 : (String.singleton c).length = 1 := rfl
       have h3 : ("\x27" : String).length = 1 := rfl
       have h4 : ("string index out of range" : String).length = 25 := rfl
       have h5 : ("\x27V\x27 argument must be an output arg" : String).length = 34 := rfl
       have h6 : ("\x27W\x27 argument must be an output arg" : String).length = 34 := rfl
       simp only [String.length_append, h1, h2, h3, h4, h5, h6] at hql
       omega)
    | simp at h

theorem foldlM_arg_step_error (I T : String) (spec : List Char) (st : MarshalState)
    (e : String) (h : List.foldlM (arg_step I T) st spec = Except.error e) :
    e ≠ "string index out of range" := by
  induction spec generalizing st with
  | nil => simp [List.foldlM_nil, pure, Except.pure] at h
  | cons c cs ih =>
    rw [List.foldlM_cons] at h
    cases hs : arg_step I T st c with
    | error e2 =>
      rw [hs] at h
      have he : e2 = e := by
        simpa [Bind.bind, Except.bind] using h
      subst he
      exact arg_step_error_ne_index I T st c e2 hs
    | ok st2 =>
      rw [hs] at h
      have h2 : List.foldlM (arg_step I T) st2 cs = Except.error e := by
        simpa [Bind.bind, Except.bind] using h
      exact ih st2 h2

theorem mapM_arglist_error (arg_spec : List Char) (types : List TypeVariant) (e : String)
    (h : types.mapM (fun v => (get_arglist v.I_type (pyOptStr v.T_type) arg_spec).map
      (fun arglist => (v.j, arglist))) = Except.error e) :
    e ≠ "string index out of range" := by
  induction types with
  | nil =>
    rw [List.mapM_nil] at h
    exact Except.noConfusion h
  | cons v vs ih =>
    rw [List.mapM_cons] at h
    cases hg : get_arglist v.I_type (pyOptStr v.T_type) arg_spec with
    | error e2 =>
      rw [hg] at h
      have he : e2 = e := by
        simpa [Except.map, Bind.bind, Except.bind] using h
      subst he
      have hm : marshal v.I_type (pyOptStr v.T_type) arg_spec = Except.error e2 := by
        cases hmm : marshal v.I_type (pyOptStr v.T_type) arg_spec with
        | error e3 =>
          have he3 : e3 = e2 := by
            rw [get_arglist, hmm] at hg
            simpa [Except.map] using hg
          rw [he3]
        | ok st =>
          rw [get_arglist, hmm] at hg
          simp [Except.map] at hg
      exact foldlM_arg_step_error v.I_type (pyOptStr v.T_type) arg_spec ([], false, 0) e2 hm
    | ok s =>
      rw [hg] at h
      cases hmm : vs.mapM (fun v => (get_arglist v.I_type (pyOptStr v.T_type) arg_spec).map
          (fun arglist => (v.j, arglist))) with
      | error e2 =>
        rw [hmm] at h
        have he : e2 = e := by
          simpa [Except.map, Bind.bind, Except.bind, pure, Except.pure] using h
        subst he
        exact ih hmm
      | ok xs =>
        rw [hmm] at h
        simp [Except.map, Bind.bind, Except.bind, pure, Except.pure] at h

theorem pySplit1_rest_shape (l nameTok rest : List Char)
    (h : pySplit1 l = some (nameTok, rest)) :
    ∃ c cs, rest = c :: cs ∧ pyIsSpace c = false := by
  simp only [pySplit1] at h
  split at h
  · cases h
  · rename_i hcond
    simp only [Option.some.injEq, Prod.mk.injEq] at h
    obtain ⟨h1, h2⟩ := h
    cases hd : ((l.dropWhile pyIsSpace).dropWhile (fun c => !(pyIsSpace c))).dropWhile
        pyIsSpace with
    | nil =>
      rw [hd] at h2
      subst h2
      rw [hd] at hcond
      simp at hcond
    | cons c cs =>
      rw [hd] at h2
      exact ⟨c, cs, h2.symm, dropWhile_head_not pyIsSpace _ c cs hd⟩

/-- C10: for every input line that passes the two-field split, the
whitespace-stripped type-code string handed to `parse_routine` is
non-empty, and `parse_routine` therefore never fails with the
out-of-range `IndexError` that reading the return code from an empty
string would raise. -/
theorem claim_C10_ret_code_read_safe (line nameTok rest : List Char)
    (h : pySplit1 (pyStrip line) = some (nameTok, rest)) :
    pyStripAll rest ≠ [] ∧
    ∀ (nm : String) (types : List TypeVariant),
      parse_routine nm (pyStripAll rest) types ≠
        Except.error ("string index out of range") := by
  obtain ⟨c, cs, hr, hc⟩ := pySplit1_rest_shape (pyStrip line) nameTok rest h
  have hargs : pyStripAll rest = c :: cs.filter (fun x => !(pyIsSpace x)) := by
    rw [pyStripAll_eq_filter, hr]
    simp [List.filter_cons, hc]
  constructor
  · rw [hargs]
    simp
  · intro nm types hcontra
    rw [hargs] at hcontra
    simp only [parse_routine] at hcontra
    cases hmm : (types.mapM (fun v => (get_arglist v.I_type (pyOptStr v.T_type)
        (cs.filter (fun x => !(pyIsSpace x)))).map (fun arglist => (v.j, arglist)))) with
    | error e =>
      rw [hmm] at hcontra
      have he : e = "string index out of range" := by
        simpa [Except.map] using hcontra
      exact absurd he (mapM_arglist_error _ types e hmm)
    | ok xs =>
      rw [hmm] at hcontra
      simp [Except.map] at hcontra

/-- C10 witness: the argument-code token of the `csr_diagonal` table line
strips to a non-empty code string. -/
theorem claim_C10_ret_code_read_safe_witness :
    pyStripAll ("v iiiIIT*T".toList) ≠ [] :=
  (claim_C10_ret_code_read_safe ("csr_diagonal        v iiiIIT*T".toList)
    ("csr_diagonal".toList) ("v iiiIIT*T".toList) (by decide)).1

/-- C5 (amended): the generator selects the index-only list exactly when
the whitespace-stripped signature string contains neither `t` nor `T`
(the condition `'t' in args or 'T' in args` of the source), not when it
contains no data-typed or data-vector code: a data-vector code `W`
without `T` would still get the index-only list.  For every routine in
the embedded tables the two criteria coincide, because every signature
containing `W` also contains `T`. -/
theorem claim_C5_type_list_selection :
    (∀ args : List Char, usesItTypes args = (args.contains 't' || args.contains 'T')) ∧
    (∀ a ∈ tableArgSpecs, usesItTypes a = spec_hasDataCode a) := by
  constructor
  · intro args
    rfl
  · decide

/-- C5 witness: the `bsr_diagonal` signature string `viiiiiIIT*T` is in
the extracted table and both criteria select the index+data list for
it. -/
theorem claim_C5_type_list_selection_witness :
    usesItTypes ("viiiiiIIT*T".toList) = spec_hasDataCode ("viiiiiIIT*T".toList) :=
  claim_C5_type_list_selection.2 ("viiiiiIIT*T".toList) (by decide)

/-- C5 counterexample: the hypothetical signature `v*W` contains a
data-vector code (`W`) but no data-typed code, so by the claim the
combined index+data list (34 variants) must be selected; the generator's
condition sees no `t`/`T` and parses the routine with the index-only
list — the emitted thunk has only the 2 index-only cases. -/
theorem claim_C5_counterexample :
    usesItTypes ("v*W".toList) = false ∧
    spec_hasDataCode ("v*W".toList) = true ∧
    (processLine i_types it_types ("foo                 v *W".toList)).map
      (fun o => o.map (fun r => r.2.1.length)) = Except.ok (some 2) ∧
    i_types.length = 2 ∧
    it_types.length = 34 := by
  refine ⟨rfl, rfl, rfl, rfl, rfl⟩

/-- C6 (amended): a duplicate routine name anywhere in the run aborts
generation with the `Duplicate routine` error before the output file of
the unit containing the second occurrence (and before the global file)
is written — but output files of units processed earlier have already
been written: on the spec's example input, with `csr_matvec` reused in
the `bsr` and `csr` tables, the run aborts having written exactly
`bsr_impl.h`. -/
theorem claim_C6_duplicate_abort (i_ty it_ty : List TypeVariant) :
    (∀ (u : String) (rs : List String) (rest : List (String × List String))
       (names written : List String) (e : String),
       processUnit i_ty it_ty rs names = Except.error e →
       runUnits i_ty it_ty ((u, rs) :: rest) names written = (written, Except.error e)) ∧
    runMain dupUnits =
      (["bsr_impl.h"], Except.error ("Duplicate routine \x27csr_matvec\x27")) := by
  constructor
  · intro u rs rest names written e h
    simp [runUnits, h]
  · rfl

/-- C6 witness: the failing `csr` unit of the duplicate example adds no
write — the run's written files stay exactly those of the units before
it. -/
theorem claim_C6_duplicate_abort_witness :
    runUnits i_types it_types [("csr", ["csr_matvec          v iiIITT*T"])]
      ["csr_matvec"] ["bsr_impl.h"] =
      (["bsr_impl.h"], Except.error ("Duplicate routine \x27csr_matvec\x27")) :=
  (claim_C6_duplicate_abort i_types it_types).1 "csr"
    ["csr_matvec          v iiIITT*T"] [] ["csr_matvec"] ["bsr_impl.h"]
    ("Duplicate routine \x27csr_matvec\x27") rfl

/-- C6 counterexample: on the spec's own example input (`csr_matvec`
reused in two different compilation units' tables) generation does abort
with the duplicate-name error, but not before any output file is
written: the earlier unit's `bsr_impl.h` has already been written when
the run aborts. -/
theorem claim_C6_counterexample :
    (runMain dupUnits).2 = Except.error ("Duplicate routine \x27csr_matvec\x27") ∧
    (runMain dupUnits).1 ≠ [] := by
  constructor
  · rfl
  · intro hcontra
    rw [show (runMain dupUnits).1 = ["bsr_impl.h"] from rfl] at hcontra
    cases hcontra
